import Mathlib

/-!
# Verification of the Clocker day-tracking engine

Shallow embedding of `src/clocker/core.py` (the `Tracker` engine and the
quarter-hour rounding helpers) together with the parts of the data model the
engine relies on.  Times of day are records of hour/minute/second/microsecond
(mirroring Python `datetime.time`); durations (`datetime.timedelta`) are
integers counting microseconds, which may be negative exactly as a Python
`timedelta` may.  The persistence store is a date-indexed map together with a
log of every record ever passed to `store`.
-/

namespace Clocker

/-- A time of day, mirroring Python `datetime.time` (valid values have
`hour < 24`, `minute < 60`, `second < 60`, `microsecond < 1000000`). -/
structure Time where
  hour : Nat
  minute : Nat
  second : Nat
  microsecond : Nat
  deriving DecidableEq, Repr

/-- Total number of microseconds since midnight; Python compares `time`
values field-lexicographically, which for valid times agrees with comparing
this number. -/
def Time.toMicro (t : Time) : Nat :=
  ((t.hour * 60 + t.minute) * 60 + t.second) * 1000000 + t.microsecond

/-- `now.replace(microsecond=0).time()` — truncation to whole seconds. -/
def truncMicro (t : Time) : Time :=
  { hour := t.hour, minute := t.minute, second := t.second, microsecond := 0 }

/-- `_round(value, resolution)` from `core.py`: `resolution * (value // resolution)`. -/
def _round (value resolution : Nat) : Nat :=
  resolution * (value / resolution)

/-- `_advance_time(hours, minutes)` from `core.py`: a minute count of 60 rolls
the hour forward, with hour 23 wrapping to hour 0; the Python constructor
`time(hours, minutes)` zeroes seconds and microseconds. -/
def _advance_time (hours minutes : Nat) : Time :=
  if minutes = 60 then
    { hour := if hours ≠ 23 then hours + 1 else 0, minute := 0,
      second := 0, microsecond := 0 }
  else
    { hour := hours, minute := minutes, second := 0, microsecond := 0 }

/-- `_round_quarter(value, threshold)` from `core.py`. -/
def _round_quarter (value : Time) (threshold : Nat) : Time :=
  let quarter := 15
  let remainder := value.minute % quarter
  let minutes :=
    if remainder > threshold then _round (value.minute + quarter) quarter
    else _round value.minute quarter
  _advance_time value.hour minutes

/-- `round_prev_quarter` from `core.py` (threshold 10). -/
def round_prev_quarter (value : Time) : Time :=
  _round_quarter value 10

/-- `round_next_quarter` from `core.py` (threshold 5). -/
def round_next_quarter (value : Time) : Time :=
  _round_quarter value 5

/-- Spec-side reading of "t rounded down to the previous multiple of 15
minutes": snap the minutes down to the preceding quarter boundary. -/
def roundDownQuarter (t : Time) : Time :=
  { hour := t.hour, minute := 15 * (t.minute / 15), second := 0, microsecond := 0 }

/-- Spec-side reading of "t rounded up to the next multiple of 15 minutes;
rounding up from minutes 45-59 advances the hour, with hour 23 wrapping to
hour 0". -/
def roundUpQuarter (t : Time) : Time :=
  if 45 ≤ t.minute then
    { hour := if t.hour = 23 then 0 else t.hour + 1, minute := 0,
      second := 0, microsecond := 0 }
  else
    { hour := t.hour, minute := 15 * (t.minute / 15) + 15,
      second := 0, microsecond := 0 }

/-- Modelled from the spec: the absence reasons of `clocker/model.py`
(not under `src/`): "vacation, sick, holiday". -/
inductive AbsenceType where
  | vacation
  | sick
  | holiday
  deriving DecidableEq, Repr

/-- Modelled from the spec: the `WorkDay` day record of `clocker/model.py`
(not under `src/`): date key, optional `begin`/`end` times, a `pause`
duration defaulting to zero, and an optional absence reason.  `pause` is an
integer number of microseconds (a Python `timedelta`, which may be
negative). -/
structure WorkDay where
  date : Nat
  begin : Option Time
  end_ : Option Time
  pause : Int
  absence : Option AbsenceType
  deriving DecidableEq, Repr

/-- A fresh record `WorkDay(day)`: modelled from the spec, all optional
fields unset and `pause` "defaults to zero until inferred or supplied
explicitly". -/
def WorkDay.new (day : Nat) : WorkDay :=
  { date := day, begin := none, end_ := none, pause := 0, absence := none }

/-- Modelled from the spec: the derived `duration` of `clocker/model.py`
(not under `src/`): "`end - begin - pause` when `end` is set;
undefined/not computed otherwise".  The spec's record invariant says a
record with `end` set also has `begin` set, so we return `none` whenever
either endpoint is missing. -/
def WorkDay.duration (w : WorkDay) : Option Int :=
  match w.begin, w.end_ with
  | some b, some e => some ((e.toMicro : Int) - (b.toMicro : Int) - w.pause)
  | _, _ => none

/-- Six hours as a microsecond count. -/
def sixHours : Int := 21600000000

/-- The configuration provider interface of spec §6: the two options the
engine reads.  `defaultPauseTime` is `none` when `Work.DefaultPauseTime`
is not configured. -/
structure Settings where
  roundToQuarter : Bool
  defaultPauseTime : Option Int
  deriving DecidableEq, Repr

/-- The persistence store of spec §6: a date-keyed map, plus a log of every
record ever handed to `store` (so "every record ever written" is statable). -/
structure DB where
  recs : Nat → Option WorkDay
  log : List WorkDay

def DB.empty : DB := ⟨fun _ => none, []⟩

def DB.load (db : DB) (day : Nat) : Option WorkDay := db.recs day

/-- `store(record)`: create-or-replace keyed by the record's date. -/
def DB.store (db : DB) (w : WorkDay) : DB :=
  ⟨fun d => if d = w.date then some w else db.recs d, w :: db.log⟩

/-- `remove(date)` on the store; in this model deletion of a present record
always succeeds. -/
def DB.removeRec (db : DB) (day : Nat) : DB :=
  ⟨fun d => if d = day then none else db.recs d, db.log⟩

/-- Python `x or y` for `x : Optional[time]`: `None` is falsy and every
`datetime.time` value is truthy. -/
def pyOrTime : Option Time → Option Time → Option Time
  | some x, _ => some x
  | none, y => y

/-- Python `pause or workday.pause` for `pause : Optional[timedelta]`:
`None` and `timedelta(0)` are falsy, every other `timedelta` (negative ones
included) is truthy. -/
def pyOrDelta : Option Int → Int → Int
  | some x, y => if x = 0 then y else x
  | none, y => y

/-- A wall-clock instant `datetime.now()`: a date key and a time of day. -/
structure DateTime where
  date : Nat
  time : Time

/-- `Tracker.__set_pause` from `core.py`: return unchanged when the pause is
already strictly positive; otherwise, when an end time exists and the
duration exceeds six hours and a nonzero `Work.DefaultPauseTime` is
configured, set the pause to that configured value.  An undefined duration
(no `begin`) is treated as not exceeding six hours. -/
def Tracker.setPause (s : Settings) (w : WorkDay) : WorkDay :=
  if 0 < w.pause then w
  else
    match w.end_ with
    | none => w
    | some _ =>
      if (w.duration.map fun d => decide (sixHours < d)).getD false then
        match s.defaultPauseTime with
        | some p => if p = 0 then w else { w with pause := p }
        | none => w
      else w

/-- The candidate `begin`/`end` computed by `stop()` (and, with
`round_prev_quarter` in place of `round_next_quarter`, by `start()`):
either the quarter-rounded current time or the current time truncated to
whole seconds. -/
def candidateEnd (s : Settings) (now : DateTime) : Time :=
  if s.roundToQuarter then round_next_quarter now.time else truncMicro now.time

/-- `Tracker.start` from `core.py`. -/
def Tracker.start (s : Settings) (db : DB) (now : DateTime) : WorkDay × DB :=
  match DB.load db now.date with
  | some workday => (workday, db)
  | none =>
    let b := if s.roundToQuarter then round_prev_quarter now.time
             else truncMicro now.time
    let workday := { WorkDay.new now.date with begin := some b }
    (workday, DB.store db workday)

/-- `Tracker.stop` from `core.py`; the `Except.error` value models the
`RuntimeError` raised when no record exists for today. -/
def Tracker.stop (s : Settings) (db : DB) (now : DateTime) :
    Except String WorkDay × DB :=
  match DB.load db now.date with
  | none => (Except.error "start() must be called before stop()", db)
  | some workday =>
    let e := candidateEnd s now
    match workday.end_ with
    | some old =>
      if e.toMicro ≤ old.toMicro then (Except.ok workday, db)
      else
        let w := Tracker.setPause s { workday with end_ := some e }
        (Except.ok w, DB.store db w)
    | none =>
      let w := Tracker.setPause s { workday with end_ := some e }
      (Except.ok w, DB.store db w)

/-- `Tracker.track` from `core.py`; the `Except.error` value models the
`ValueError` raised when the merged record has no begin time. -/
def Tracker.track (s : Settings) (db : DB) (day : Nat)
    (b e : Option Time) (p : Option Int) : Except String WorkDay × DB :=
  let workday :=
    match DB.load db day with
    | none => WorkDay.new day
    | some w => w
  let workday :=
    { workday with
      begin := pyOrTime b workday.begin,
      end_ := pyOrTime e workday.end_,
      pause := pyOrDelta p workday.pause }
  let workday :=
    if workday.pause = 0 then Tracker.setPause s workday else workday
  match workday.begin with
  | none => (Except.error "start time of workday cannot be None", db)
  | some _ => (Except.ok workday, DB.store db workday)

/-- `Tracker.remove` from `core.py`: a no-op when no record exists,
otherwise deletion from the store. -/
def Tracker.remove (db : DB) (day : Nat) : DB :=
  match DB.load db day with
  | none => db
  | some _ => DB.removeRec db day

/-- `Tracker.notify` from `core.py`: unconditionally store a fresh record
carrying only the absence reason. -/
def Tracker.notify (db : DB) (day : Nat) (a : AbsenceType) : WorkDay × DB :=
  let workday := { WorkDay.new day with absence := some a }
  (workday, DB.store db workday)

/-- One engine invocation with its arguments (each `start`/`stop` carries
the wall-clock instant it captures). -/
inductive Op where
  | start (now : DateTime)
  | stop (now : DateTime)
  | track (day : Nat) (b e : Option Time) (p : Option Int)
  | remove (day : Nat)
  | notify (day : Nat) (a : AbsenceType)

/-- Effect of one engine invocation on the store (errors are surfaced to the
caller and leave the store untouched). -/
def step (s : Settings) (db : DB) : Op → DB
  | .start now => (Tracker.start s db now).2
  | .stop now => (Tracker.stop s db now).2
  | .track day b e p => (Tracker.track s db day b e p).2
  | .remove day => Tracker.remove db day
  | .notify day a => (Tracker.notify db day a).2

/-- Run a sequence of engine invocations against a store. -/
def run (s : Settings) (db : DB) : List Op → DB
  | [] => db
  | op :: rest => run s (step s db op) rest

/-! ## Claim theorems -/

/-- C1: for every valid time of day `t`, `round_prev_quarter` (threshold 10)
and `round_next_quarter` (threshold 5) follow the core rule — with
`r = minute(t) mod 15`, the result is `t` rounded up to the next multiple of
15 minutes when `r > threshold` and otherwise `t` rounded down to the
previous multiple of 15, where rounding up from minutes 45-59 advances the
hour and hour 23 wraps to hour 0 — and the six worked examples hold
exactly. -/
theorem C1_round_quarter_core (t : Time) (hm : t.minute < 60) :
    (round_prev_quarter t =
      if 10 < t.minute % 15 then roundUpQuarter t else roundDownQuarter t) ∧
    (round_next_quarter t =
      if 5 < t.minute % 15 then roundUpQuarter t else roundDownQuarter t) ∧
    round_prev_quarter ⟨8, 30, 0, 0⟩ = ⟨8, 30, 0, 0⟩ ∧
    round_prev_quarter ⟨8, 40, 0, 0⟩ = ⟨8, 30, 0, 0⟩ ∧
    round_prev_quarter ⟨8, 41, 0, 0⟩ = ⟨8, 45, 0, 0⟩ ∧
    round_next_quarter ⟨8, 30, 0, 0⟩ = ⟨8, 30, 0, 0⟩ ∧
    round_next_quarter ⟨8, 35, 0, 0⟩ = ⟨8, 30, 0, 0⟩ ∧
    round_next_quarter ⟨8, 36, 0, 0⟩ = ⟨8, 45, 0, 0⟩ := by
  refine ⟨?_, ?_, by decide, by decide, by decide, by decide, by decide, by decide⟩ <;>
  · simp only [round_prev_quarter, round_next_quarter, _round_quarter, _round,
      _advance_time, roundUpQuarter, roundDownQuarter]
    split_ifs <;> simp only [Time.mk.injEq, true_and, and_true] <;> omega

/-- C1 witness: the core-rule equations instantiated at the concrete time
8:41:00. -/
theorem C1_round_quarter_core_witness :
    (round_prev_quarter ⟨8, 41, 0, 0⟩ =
      if 10 < (41 : Nat) % 15 then roundUpQuarter ⟨8, 41, 0, 0⟩
      else roundDownQuarter ⟨8, 41, 0, 0⟩) ∧
    (round_next_quarter ⟨8, 41, 0, 0⟩ =
      if 5 < (41 : Nat) % 15 then roundUpQuarter ⟨8, 41, 0, 0⟩
      else roundDownQuarter ⟨8, 41, 0, 0⟩) :=
  ⟨(C1_round_quarter_core ⟨8, 41, 0, 0⟩ (by decide)).1,
   (C1_round_quarter_core ⟨8, 41, 0, 0⟩ (by decide)).2.1⟩

/-- C8 counterexample: the quarter-aligned time 8:30:45 (minute mod 15 = 0)
is not returned unchanged — `round_prev_quarter` drops its seconds. -/
theorem C8_aligned_cex :
    (⟨8, 30, 45, 0⟩ : Time).minute % 15 = 0 ∧
    round_prev_quarter ⟨8, 30, 45, 0⟩ ≠ ⟨8, 30, 45, 0⟩ := by decide

/-- C8 amended: a valid quarter-aligned time whose seconds and microseconds
are zero is returned unchanged by both rounding functions. -/
theorem C8_aligned_fixed (t : Time) (hq : t.minute % 15 = 0)
    (hm : t.minute < 60) (hsec : t.second = 0) (hus : t.microsecond = 0) :
    round_prev_quarter t = t ∧ round_next_quarter t = t := by
  obtain ⟨h, m, sec, us⟩ := t
  simp only at hq hm hsec hus
  subst hsec hus
  constructor <;>
  · simp only [round_prev_quarter, round_next_quarter, _round_quarter, _round,
      _advance_time]
    split_ifs <;> simp only [Time.mk.injEq, true_and, and_true] <;> omega

/-- C8 witness: the amended theorem applied at the concrete time 8:30:00. -/
theorem C8_aligned_fixed_witness :
    round_prev_quarter ⟨8, 30, 0, 0⟩ = ⟨8, 30, 0, 0⟩ ∧
    round_next_quarter ⟨8, 30, 0, 0⟩ = ⟨8, 30, 0, 0⟩ :=
  C8_aligned_fixed ⟨8, 30, 0, 0⟩ (by decide) (by decide) rfl rfl

/-- Pause inference only ever touches the `pause` field: every other field of
the record survives `Tracker.setPause` unchanged. -/
theorem setPause_frame (s : Settings) (w : WorkDay) :
    (Tracker.setPause s w).date = w.date ∧
    (Tracker.setPause s w).begin = w.begin ∧
    (Tracker.setPause s w).end_ = w.end_ ∧
    (Tracker.setPause s w).absence = w.absence := by
  obtain ⟨rq, dpt⟩ := s
  obtain ⟨d, bg, en, pa, ab⟩ := w
  unfold Tracker.setPause
  cases en <;> cases dpt <;> dsimp only <;> split_ifs <;> simp

/-- C7: `notify(day, a)` returns, and stores under `day`, a fresh record
whose absence is `a`, whose begin and end are unset and whose pause is the
zero default, regardless of any record previously stored for `day`. -/
theorem C7_notify_replaces (db : DB) (day : Nat) (a : AbsenceType) :
    (Tracker.notify db day a).1 =
      { date := day, begin := none, end_ := none, pause := 0, absence := some a } ∧
    ((Tracker.notify db day a).2).recs day =
      some { date := day, begin := none, end_ := none, pause := 0,
             absence := some a } := by
  refine ⟨rfl, ?_⟩
  simp [Tracker.notify, DB.store, WorkDay.new]

/-- C5: `start()` is idempotent — when a record already exists for the
current date it is returned unchanged with no write to the store, and two
`start()` calls on the same date yield the same record and the same store. -/
theorem C5_start_idempotent :
    (∀ (s : Settings) (db : DB) (now : DateTime) (w : WorkDay),
        DB.load db now.date = some w → Tracker.start s db now = (w, db)) ∧
    (∀ (s : Settings) (db : DB) (now now2 : DateTime), now2.date = now.date →
        Tracker.start s (Tracker.start s db now).2 now2 =
          ((Tracker.start s db now).1, (Tracker.start s db now).2)) := by
  constructor
  · intro s db now w h
    simp [Tracker.start, h]
  · intro s db now now2 hday
    cases hload : DB.load db now.date with
    | some w =>
      simp only [DB.load] at hload
      simp [Tracker.start, DB.load, hday, hload]
    | none =>
      simp only [DB.load] at hload
      simp [Tracker.start, DB.load, DB.store, WorkDay.new, hday, hload]

/-- C5 witness: starting on a date that already holds a record (date 0,
begun at 8:00) returns that record and leaves the store untouched. -/
theorem C5_start_idempotent_witness :
    Tracker.start ⟨false, none⟩
        (DB.store DB.empty ⟨0, some ⟨8, 0, 0, 0⟩, none, 0, none⟩)
        ⟨0, ⟨9, 0, 0, 0⟩⟩ =
      (⟨0, some ⟨8, 0, 0, 0⟩, none, 0, none⟩,
       DB.store DB.empty ⟨0, some ⟨8, 0, 0, 0⟩, none, 0, none⟩) :=
  C5_start_idempotent.1 ⟨false, none⟩
    (DB.store DB.empty ⟨0, some ⟨8, 0, 0, 0⟩, none, 0, none⟩)
    ⟨0, ⟨9, 0, 0, 0⟩⟩ ⟨0, some ⟨8, 0, 0, 0⟩, none, 0, none⟩ rfl

/-- C4: when today's record already has an end time, `stop()` with a
candidate end not strictly later than the stored end returns the record
unchanged and persists nothing; with a strictly later candidate it persists
the record with its end replaced by the candidate. -/
theorem C4_stop_guard (s : Settings) (db : DB) (now : DateTime)
    (w : WorkDay) (old : Time)
    (h : DB.load db now.date = some w) (he : w.end_ = some old) :
    ((candidateEnd s now).toMicro ≤ old.toMicro →
      Tracker.stop s db now = (Except.ok w, db)) ∧
    (old.toMicro < (candidateEnd s now).toMicro →
      Tracker.stop s db now =
        (Except.ok (Tracker.setPause s { w with end_ := some (candidateEnd s now) }),
         DB.store db (Tracker.setPause s { w with end_ := some (candidateEnd s now) })) ∧
      (Tracker.setPause s { w with end_ := some (candidateEnd s now) }).end_ =
        some (candidateEnd s now)) := by
  simp only [DB.load] at h
  constructor
  · intro hle
    simp [Tracker.stop, DB.load, h, he, hle]
  · intro hlt
    refine ⟨?_, ?_⟩
    · simp [Tracker.stop, DB.load, h, he, Nat.not_le.mpr hlt]
    · exact (setPause_frame s { w with end_ := some (candidateEnd s now) }).2.2.1

/-- C4 witness: with a stored end of 16:00 and rounding disabled, stopping
at 15:00 is a no-op on the store and returns the stored record. -/
theorem C4_stop_guard_witness :
    Tracker.stop ⟨false, none⟩
        (DB.store DB.empty ⟨0, some ⟨8, 0, 0, 0⟩, some ⟨16, 0, 0, 0⟩, 0, none⟩)
        ⟨0, ⟨15, 0, 0, 0⟩⟩ =
      (Except.ok ⟨0, some ⟨8, 0, 0, 0⟩, some ⟨16, 0, 0, 0⟩, 0, none⟩,
       DB.store DB.empty ⟨0, some ⟨8, 0, 0, 0⟩, some ⟨16, 0, 0, 0⟩, 0, none⟩) :=
  (C4_stop_guard ⟨false, none⟩
      (DB.store DB.empty ⟨0, some ⟨8, 0, 0, 0⟩, some ⟨16, 0, 0, 0⟩, 0, none⟩)
      ⟨0, ⟨15, 0, 0, 0⟩⟩ ⟨0, some ⟨8, 0, 0, 0⟩, some ⟨16, 0, 0, 0⟩, 0, none⟩
      ⟨16, 0, 0, 0⟩ rfl rfl).1 (by decide)

/-- Unfolding of `Tracker.track`: load-or-create, merge the three optional
inputs Python-`or`-style, run pause inference when the merged pause is zero,
then either reject (no begin) without storing, or store. -/
theorem track_spec (s : Settings) (db : DB) (day : Nat) (b e : Option Time)
    (p : Option Int) (m : WorkDay)
    (hm : m = (let w := (DB.load db day).getD (WorkDay.new day)
               { w with begin := pyOrTime b w.begin, end_ := pyOrTime e w.end_,
                        pause := pyOrDelta p w.pause })) :
    Tracker.track s db day b e p =
      match (if m.pause = 0 then Tracker.setPause s m else m).begin with
      | none => (Except.error "start time of workday cannot be None", db)
      | some _ =>
        (Except.ok (if m.pause = 0 then Tracker.setPause s m else m),
         DB.store db (if m.pause = 0 then Tracker.setPause s m else m)) := by
  subst hm
  rcases hL : DB.load db day with _ | w <;>
    simp only [Tracker.track, hL, Option.getD]

/-- The begin field of the record `track` resolves (merge plus possible
pause inference) is exactly the Python-`or` merge of the begin input with
the loaded begin. -/
theorem track_final_begin (s : Settings) (m : WorkDay) :
    (if m.pause = 0 then Tracker.setPause s m else m).begin = m.begin := by
  split_ifs with h
  · exact (setPause_frame s m).2.1
  · rfl

/-- C6: `track` raises its validation error exactly when the record obtained
by merging the inputs with the loaded (or fresh) record has no begin, and in
that case the store is left exactly as it was. -/
theorem C6_track_validation (s : Settings) (db : DB) (day : Nat)
    (b e : Option Time) (p : Option Int) :
    (pyOrTime b ((DB.load db day).getD (WorkDay.new day)).begin = none ↔
      (Tracker.track s db day b e p).1 =
        Except.error "start time of workday cannot be None") ∧
    (pyOrTime b ((DB.load db day).getD (WorkDay.new day)).begin = none →
      (Tracker.track s db day b e p).2 = db) := by
  have hs := track_spec s db day b e p
    { (DB.load db day).getD (WorkDay.new day) with
      begin := pyOrTime b ((DB.load db day).getD (WorkDay.new day)).begin,
      end_ := pyOrTime e ((DB.load db day).getD (WorkDay.new day)).end_,
      pause := pyOrDelta p ((DB.load db day).getD (WorkDay.new day)).pause } rfl
  rw [hs, track_final_begin]
  rcases hB : pyOrTime b ((DB.load db day).getD (WorkDay.new day)).begin with _ | t <;>
    simp [hB]

/-- C6 witness: `track` on an empty store with no begin input leaves the
store exactly as it was. -/
theorem C6_track_validation_witness :
    (Tracker.track ⟨false, none⟩ DB.empty 0 none none none).2 = DB.empty :=
  (C6_track_validation ⟨false, none⟩ DB.empty 0 none none none).2 rfl

/-- Pause inference in `track` (run only when the merged pause is zero)
never touches the absence field. -/
theorem track_final_absence (s : Settings) (m : WorkDay) :
    (if m.pause = 0 then Tracker.setPause s m else m).absence = m.absence := by
  split_ifs with h
  · exact (setPause_frame s m).2.2.2
  · rfl

/-- C10: the record persisted by a successful `track` carries the same
absence value as the loaded record (or the fresh record when none existed),
so backfilled times keep an absence marker set earlier by `notify`. -/
theorem C10_track_absence_frame (s : Settings) (db : DB) (day : Nat)
    (b e : Option Time) (p : Option Int) (w2 : WorkDay)
    (h : (Tracker.track s db day b e p).1 = Except.ok w2) :
    w2.absence = ((DB.load db day).getD (WorkDay.new day)).absence ∧
    (Tracker.track s db day b e p).2 = DB.store db w2 := by
  set w0 := (DB.load db day).getD (WorkDay.new day) with hw0
  set m : WorkDay :=
    { w0 with begin := pyOrTime b w0.begin, end_ := pyOrTime e w0.end_,
              pause := pyOrDelta p w0.pause } with hm
  have hs := track_spec s db day b e p m (by rw [hm, hw0])
  have hfb := track_final_begin s m
  have hfa := track_final_absence s m
  rw [hs] at h ⊢
  rcases hB : m.begin with _ | t
  · rw [hfb, hB] at h
    simp at h
  · rw [hfb, hB] at h ⊢
    dsimp only at h ⊢
    obtain rfl : _ = w2 := by injection h
    refine ⟨?_, rfl⟩
    rw [hfa, hm]

/-- C10 witness: tracking an end time onto a day marked sick keeps the sick
marker on the persisted record. -/
theorem C10_track_absence_frame_witness :
    (WorkDay.mk 0 (some ⟨8, 0, 0, 0⟩) none 0 (some AbsenceType.sick)).absence =
      ((DB.load (DB.store DB.empty ⟨0, none, none, 0, some AbsenceType.sick⟩) 0).getD
        (WorkDay.new 0)).absence ∧
    (Tracker.track ⟨false, none⟩
        (DB.store DB.empty ⟨0, none, none, 0, some AbsenceType.sick⟩)
        0 (some ⟨8, 0, 0, 0⟩) none none).2 =
      DB.store (DB.store DB.empty ⟨0, none, none, 0, some AbsenceType.sick⟩)
        ⟨0, some ⟨8, 0, 0, 0⟩, none, 0, some AbsenceType.sick⟩ :=
  C10_track_absence_frame ⟨false, none⟩
    (DB.store DB.empty ⟨0, none, none, 0, some AbsenceType.sick⟩)
    0 (some ⟨8, 0, 0, 0⟩) none none
    ⟨0, some ⟨8, 0, 0, 0⟩, none, 0, some AbsenceType.sick⟩ rfl

/-- Pause inference in `track` (run only when the merged pause is zero)
never touches the end field. -/
theorem track_final_end (s : Settings) (m : WorkDay) :
    (if m.pause = 0 then Tracker.setPause s m else m).end_ = m.end_ := by
  split_ifs with h
  · exact (setPause_frame s m).2.2.1
  · rfl

/-- C3 counterexample: with a stored pause of one hour, `track` called with
an explicit zero pause keeps the stored hour instead of overwriting it with
zero — Python `or` treats `timedelta(0)` as falsy. -/
theorem C3_zero_pause_cex :
    (Tracker.track ⟨false, none⟩
        (DB.store DB.empty ⟨0, some ⟨8, 0, 0, 0⟩, none, 3600000000, none⟩)
        0 none none (some 0)).1 =
      Except.ok ⟨0, some ⟨8, 0, 0, 0⟩, none, 3600000000, none⟩ ∧
    (3600000000 : Int) ≠ 0 := by
  exact ⟨rfl, by decide⟩

/-- C3 amended: provided `begin`/`end` inputs overwrite the loaded fields
and absent ones are retained; a provided nonzero pause overwrites, while a
provided zero pause is treated like an absent one and the stored pause is
retained; when the resolved pause is zero, pause inference may then adjust
the pause (and only the pause) before the merged record is persisted. -/
theorem C3_track_merge (s : Settings) (db : DB) (day : Nat)
    (b e : Option Time) (p : Option Int) (w0 m : WorkDay)
    (hw0 : w0 = (DB.load db day).getD (WorkDay.new day))
    (hm : m = { date := w0.date,
                begin := match b with | some x => some x | none => w0.begin,
                end_ := match e with | some x => some x | none => w0.end_,
                pause := match p with
                         | some x => if x = 0 then w0.pause else x
                         | none => w0.pause,
                absence := w0.absence })
    (hb : m.begin ≠ none) :
    Tracker.track s db day b e p =
      (Except.ok (if m.pause = 0 then Tracker.setPause s m else m),
       DB.store db (if m.pause = 0 then Tracker.setPause s m else m)) ∧
    (if m.pause = 0 then Tracker.setPause s m else m).begin = m.begin ∧
    (if m.pause = 0 then Tracker.setPause s m else m).end_ = m.end_ ∧
    (m.pause ≠ 0 →
      (if m.pause = 0 then Tracker.setPause s m else m).pause = m.pause) := by
  have hspec : m = (let w := (DB.load db day).getD (WorkDay.new day)
      { w with begin := pyOrTime b w.begin, end_ := pyOrTime e w.end_,
               pause := pyOrDelta p w.pause }) := by
    rw [hm, hw0]
    cases b <;> cases e <;> cases p <;> rfl
  have hs := track_spec s db day b e p m hspec
  have hfb := track_final_begin s m
  have hfe := track_final_end s m
  rcases hB : m.begin with _ | t
  · exact absurd hB hb
  · rw [hs, hfb, hB]
    dsimp only
    refine ⟨rfl, rfl, hfe, ?_⟩
    intro hp
    rw [if_neg hp]

/-- C3 witness: on an empty store, tracking day 0 with begin 8:00, no end
and a one-hour pause persists exactly the merged record. -/
theorem C3_track_merge_witness :
    Tracker.track ⟨false, none⟩ DB.empty 0 (some ⟨8, 0, 0, 0⟩) none
        (some 3600000000) =
      (Except.ok
        (if (⟨0, some ⟨8, 0, 0, 0⟩, none, 3600000000, none⟩ : WorkDay).pause = 0 then
          Tracker.setPause ⟨false, none⟩ ⟨0, some ⟨8, 0, 0, 0⟩, none, 3600000000, none⟩
        else ⟨0, some ⟨8, 0, 0, 0⟩, none, 3600000000, none⟩),
       DB.store DB.empty
        (if (⟨0, some ⟨8, 0, 0, 0⟩, none, 3600000000, none⟩ : WorkDay).pause = 0 then
          Tracker.setPause ⟨false, none⟩ ⟨0, some ⟨8, 0, 0, 0⟩, none, 3600000000, none⟩
        else ⟨0, some ⟨8, 0, 0, 0⟩, none, 3600000000, none⟩)) ∧
    (if (⟨0, some ⟨8, 0, 0, 0⟩, none, 3600000000, none⟩ : WorkDay).pause = 0 then
        Tracker.setPause ⟨false, none⟩ ⟨0, some ⟨8, 0, 0, 0⟩, none, 3600000000, none⟩
      else ⟨0, some ⟨8, 0, 0, 0⟩, none, 3600000000, none⟩).begin =
      (⟨0, some ⟨8, 0, 0, 0⟩, none, 3600000000, none⟩ : WorkDay).begin ∧
    (if (⟨0, some ⟨8, 0, 0, 0⟩, none, 3600000000, none⟩ : WorkDay).pause = 0 then
        Tracker.setPause ⟨false, none⟩ ⟨0, some ⟨8, 0, 0, 0⟩, none, 3600000000, none⟩
      else ⟨0, some ⟨8, 0, 0, 0⟩, none, 3600000000, none⟩).end_ =
      (⟨0, some ⟨8, 0, 0, 0⟩, none, 3600000000, none⟩ : WorkDay).end_ ∧
    ((⟨0, some ⟨8, 0, 0, 0⟩, none, 3600000000, none⟩ : WorkDay).pause ≠ 0 →
      (if (⟨0, some ⟨8, 0, 0, 0⟩, none, 3600000000, none⟩ : WorkDay).pause = 0 then
          Tracker.setPause ⟨false, none⟩ ⟨0, some ⟨8, 0, 0, 0⟩, none, 3600000000, none⟩
        else ⟨0, some ⟨8, 0, 0, 0⟩, none, 3600000000, none⟩).pause =
        (⟨0, some ⟨8, 0, 0, 0⟩, none, 3600000000, none⟩ : WorkDay).pause) :=
  C3_track_merge ⟨false, none⟩ DB.empty 0 (some ⟨8, 0, 0, 0⟩) none
    (some 3600000000) (WorkDay.new 0)
    ⟨0, some ⟨8, 0, 0, 0⟩, none, 3600000000, none⟩ rfl rfl (by decide)

/-- C2 counterexample: a stored record for day 0 with a *negative* (hence
nonzero) pause of -60 seconds; `stop()` at 17:00 runs pause inference, which
replaces the nonzero pause with the configured hour — the code guards on
`pause > 0`, not `pause == 0`, so a nonzero pause is not always left
unchanged. -/
theorem C2_negative_pause_cex :
    ((DB.store DB.empty
        ⟨0, some ⟨8, 0, 0, 0⟩, some ⟨16, 0, 0, 0⟩, -60000000, none⟩).recs 0).map
      WorkDay.pause = some (-60000000) ∧
    ((Tracker.stop ⟨false, some 3600000000⟩
        (DB.store DB.empty
          ⟨0, some ⟨8, 0, 0, 0⟩, some ⟨16, 0, 0, 0⟩, -60000000, none⟩)
        ⟨0, ⟨17, 0, 0, 0⟩⟩).2.recs 0).map WorkDay.pause = some 3600000000 := by
  exact ⟨rfl, rfl⟩

/-- C2 amended: pause inference applies when the pause is not strictly
positive (rather than exactly zero): with an end set, `end - begin - pause`
over six hours and a present nonzero configured default, the pause becomes
the configured value; with a strictly positive pause, no end, a duration of
at most six hours, or an absent (or zero) configured value, the record is
unchanged — and an absent configuration raises no error. -/
theorem C2_pause_inference (s : Settings) (w : WorkDay) :
    (∀ tb te pv, w.begin = some tb → w.end_ = some te → w.pause ≤ 0 →
        sixHours < (te.toMicro : Int) - (tb.toMicro : Int) - w.pause →
        s.defaultPauseTime = some pv → pv ≠ 0 →
        Tracker.setPause s w = { w with pause := pv }) ∧
    (0 < w.pause → Tracker.setPause s w = w) ∧
    (w.end_ = none → Tracker.setPause s w = w) ∧
    (∀ tb te, w.begin = some tb → w.end_ = some te →
        (te.toMicro : Int) - (tb.toMicro : Int) - w.pause ≤ sixHours →
        Tracker.setPause s w = w) ∧
    (∀ tb te, w.begin = some tb → w.end_ = some te → w.pause ≤ 0 →
        sixHours < (te.toMicro : Int) - (tb.toMicro : Int) - w.pause →
        s.defaultPauseTime = none → Tracker.setPause s w = w) ∧
    (∀ tb te, w.begin = some tb → w.end_ = some te → w.pause ≤ 0 →
        sixHours < (te.toMicro : Int) - (tb.toMicro : Int) - w.pause →
        s.defaultPauseTime = some 0 → Tracker.setPause s w = w) := by
  refine ⟨?_, ?_, ?_, ?_, ?_, ?_⟩
  · intro tb te pv hb he hp hd hc hnz
    simp only [Tracker.setPause, WorkDay.duration, hb, he, hc,
      Option.map_some', Option.getD_some, decide_eq_true_eq]
    rw [if_neg (by omega), if_pos hd, if_neg hnz]
  · intro hp
    unfold Tracker.setPause
    rw [if_pos hp]
  · intro he
    simp only [Tracker.setPause, he]
    split_ifs <;> rfl
  · intro tb te hb he hd
    simp only [Tracker.setPause, WorkDay.duration, hb, he,
      Option.map_some', Option.getD_some, decide_eq_true_eq]
    rw [if_neg (by omega :
      ¬ sixHours < (te.toMicro : Int) - (tb.toMicro : Int) - w.pause)]
    split_ifs <;> rfl
  · intro tb te hb he hp hd hc
    simp only [Tracker.setPause, WorkDay.duration, hb, he, hc,
      Option.map_some', Option.getD_some, decide_eq_true_eq]
    rw [if_neg (by omega), if_pos hd]
  · intro tb te hb he hp hd hc
    simp only [Tracker.setPause, WorkDay.duration, hb, he, hc,
      Option.map_some', Option.getD_some, decide_eq_true_eq]
    rw [if_neg (by omega), if_pos hd, if_pos trivial]

/-- C2 witness: a record begun at 8:00 and ended at 17:00 with zero pause
and a configured default of one hour gets that hour as its pause. -/
theorem C2_pause_inference_witness :
    Tracker.setPause ⟨false, some 3600000000⟩
        ⟨0, some ⟨8, 0, 0, 0⟩, some ⟨17, 0, 0, 0⟩, 0, none⟩ =
      { (⟨0, some ⟨8, 0, 0, 0⟩, some ⟨17, 0, 0, 0⟩, 0, none⟩ : WorkDay) with
        pause := 3600000000 } :=
  (C2_pause_inference ⟨false, some 3600000000⟩
      ⟨0, some ⟨8, 0, 0, 0⟩, some ⟨17, 0, 0, 0⟩, 0, none⟩).1
    ⟨8, 0, 0, 0⟩ ⟨17, 0, 0, 0⟩ 3600000000 rfl rfl (by decide) (by decide)
    rfl (by decide)

/-- Engine-operation arguments whose explicit pause inputs are
non-negative. -/
def OpOk : Op → Prop
  | .track _ _ _ (some pv) => 0 ≤ pv
  | _ => True

/-- A configuration whose default pause, when present, is non-negative. -/
def SettingsOk (s : Settings) : Prop :=
  ∀ pv, s.defaultPauseTime = some pv → 0 ≤ pv

/-- Store invariant: every record currently held, and every record ever
written, has a non-negative pause. -/
def InvDB (db : DB) : Prop :=
  (∀ d w, db.recs d = some w → 0 ≤ w.pause) ∧ (∀ w ∈ db.log, 0 ≤ w.pause)

/-- Pause inference never produces a negative pause from a non-negative one
under a non-negative configured default. -/
theorem setPause_pause_nonneg (s : Settings) (w : WorkDay)
    (hs : SettingsOk s) (hw : 0 ≤ w.pause) :
    0 ≤ (Tracker.setPause s w).pause := by
  obtain ⟨rq, dpt⟩ := s
  have hdp : ∀ pv, dpt = some pv → 0 ≤ pv := fun pv h =>
    hs pv (by simpa using h)
  obtain ⟨d0, bg, en, pa, ab⟩ := w
  simp only at hw ⊢
  cases en <;> cases dpt <;>
    simp only [Tracker.setPause] <;> split_ifs <;>
    first
      | simpa using hw
      | (simp only [WorkDay.pause]; exact hdp _ rfl)

theorem store_inv (db : DB) (w : WorkDay) (hdb : InvDB db)
    (hw : 0 ≤ w.pause) : InvDB (DB.store db w) := by
  obtain ⟨hrecs, hlog⟩ := hdb
  refine ⟨?_, ?_⟩
  · intro d v hv
    by_cases hd : d = w.date
    · subst hd
      rw [show (DB.store db w).recs w.date = some w from by
        simp [DB.store]] at hv
      injection hv with hv
      exact hv ▸ hw
    · simp only [DB.store, if_neg hd] at hv
      exact hrecs d v hv
  · intro v hv
    rcases List.mem_cons.mp hv with h | h
    · exact h ▸ hw
    · exact hlog v h

theorem removeRec_inv (db : DB) (day : Nat) (hdb : InvDB db) :
    InvDB (DB.removeRec db day) := by
  obtain ⟨hrecs, hlog⟩ := hdb
  refine ⟨?_, hlog⟩
  intro d v hv
  by_cases hd : d = day
  · simp [DB.removeRec, hd] at hv
  · simp only [DB.removeRec, if_neg hd] at hv
    exact hrecs d v hv

theorem track_store_inv (s : Settings) (db : DB) (day : Nat)
    (b e : Option Time) (p : Option Int) (hs : SettingsOk s) (hdb : InvDB db)
    (hp : ∀ pv, p = some pv → 0 ≤ pv) :
    InvDB ((Tracker.track s db day b e p).2) := by
  set w0 := (DB.load db day).getD (WorkDay.new day) with hw0
  set m : WorkDay :=
    { w0 with begin := pyOrTime b w0.begin, end_ := pyOrTime e w0.end_,
              pause := pyOrDelta p w0.pause } with hm
  have hsp := track_spec s db day b e p m (by rw [hm, hw0])
  have h0 : 0 ≤ w0.pause := by
    rw [hw0]
    rcases hL : DB.load db day with _ | v
    · simp [WorkDay.new]
    · simpa using hdb.1 day v hL
  have hmp : 0 ≤ m.pause := by
    rw [hm]
    cases p with
    | none => simpa [pyOrDelta] using h0
    | some x =>
      by_cases hx : x = 0 <;> simp [pyOrDelta, hx, h0]
      exact hp x rfl
  have hfinal : 0 ≤ (if m.pause = 0 then Tracker.setPause s m else m).pause := by
    split_ifs
    · exact setPause_pause_nonneg s m hs hmp
    · exact hmp
  rw [hsp, track_final_begin]
  rcases hB : m.begin with _ | t
  · exact hdb
  · exact store_inv db _ hdb hfinal

theorem step_inv (s : Settings) (db : DB) (op : Op)
    (hs : SettingsOk s) (hdb : InvDB db) (hop : OpOk op) :
    InvDB (step s db op) := by
  cases op with
  | start now =>
    show InvDB (Tracker.start s db now).2
    unfold Tracker.start
    rcases hL : DB.load db now.date with _ | w
    · exact store_inv db _ hdb (by simp [WorkDay.new])
    · exact hdb
  | stop now =>
    show InvDB (Tracker.stop s db now).2
    unfold Tracker.stop
    rcases hL : DB.load db now.date with _ | w
    · exact hdb
    · have hw : 0 ≤ w.pause := by simpa using hdb.1 now.date w hL
      dsimp only
      rcases hE : w.end_ with _ | old
      · dsimp only
        exact store_inv db _ hdb
          (setPause_pause_nonneg s _ hs (by simpa using hw))
      · dsimp only
        split_ifs
        · exact hdb
        · exact store_inv db _ hdb
            (setPause_pause_nonneg s _ hs (by simpa using hw))
  | track day b e p =>
    exact track_store_inv s db day b e p hs hdb
      (fun pv hpv => by rw [hpv] at hop; exact hop)
  | remove day =>
    show InvDB (Tracker.remove db day)
    unfold Tracker.remove
    rcases hL : DB.load db day with _ | w
    · exact hdb
    · exact removeRec_inv db day hdb
  | notify day a =>
    exact store_inv db _ hdb (by simp [WorkDay.new])

theorem run_inv (s : Settings) (ops : List Op) (db : DB)
    (hs : SettingsOk s) (hdb : InvDB db) (hops : ∀ op ∈ ops, OpOk op) :
    InvDB (run s db ops) := by
  induction ops generalizing db with
  | nil => exact hdb
  | cons op rest ih =>
    exact ih (step s db op)
      (step_inv s db op hs hdb (hops op (List.mem_cons_self op rest)))
      (fun o ho => hops o (List.mem_cons_of_mem op ho))

/-- C9 counterexample: `track` accepts a negative explicit pause and writes
it to the store — one operation from the empty store logs a record with
pause -1 second. -/
theorem C9_negative_pause_cex :
    ((run ⟨false, none⟩ DB.empty
        [Op.track 0 (some ⟨8, 0, 0, 0⟩) none (some (-1000000))]).log.map
      WorkDay.pause) = [(-1000000 : Int)] ∧ (-1000000 : Int) < 0 := by
  exact ⟨rfl, by decide⟩

/-- C9 amended: over every sequence of engine operations from the empty
store in which each explicit pause passed to `track` is non-negative, and
under a configured default pause that is non-negative when present, every
record ever written to the store has a non-negative pause. -/
theorem C9_pause_invariant (s : Settings) (ops : List Op)
    (hs : SettingsOk s) (hops : ∀ op ∈ ops, OpOk op) :
    ∀ w ∈ (run s DB.empty ops).log, 0 ≤ w.pause :=
  (run_inv s ops DB.empty hs
    ⟨fun _ _ h => by simp [DB.empty] at h, fun _ h => by simp [DB.empty] at h⟩
    hops).2

/-- C9 witness: a start-track-stop day (8:00-17:00, configured default pause
one hour) writes only records with non-negative pause; the final logged
record carries the inferred one-hour pause. -/
theorem C9_pause_invariant_witness :
    (0 : Int) ≤
      (WorkDay.mk 0 (some ⟨8, 0, 0, 0⟩) (some ⟨17, 0, 0, 0⟩) 3600000000
        none).pause :=
  C9_pause_invariant ⟨false, some 3600000000⟩
    [Op.track 0 (some ⟨8, 0, 0, 0⟩) (some ⟨17, 0, 0, 0⟩) none]
    (fun pv h => by injection h with h2; omega)
    (by intro op h; simp at h; subst h; trivial)
    ⟨0, some ⟨8, 0, 0, 0⟩, some ⟨17, 0, 0, 0⟩, 3600000000, none⟩
    (by decide)

end Clocker
